import Mathlib

/-!
Verification of the frame pacing and reordering scheduler of
`twitchstream/outputvideo.py`.

The development is a shallow embedding of the three classes of the source:

* `TwitchOutputStream` (the Immediate Stream / Sink Adapter boundary):
  `send_frame` polls the sink process, resets it when the poll is truthy,
  asserts the frame shape and writes the clipped, truncated 8-bit frame.
* `TwitchOutputStreamRepeater` (the Repeater Scheduler): a periodic tick
  that re-sends `lastframe` and reschedules itself only on success.
* `TwitchBufferedOutputStream` (the Buffered Reordering Scheduler): a
  priority queue of `(frame_counter, frame)` entries, a repetition
  fallback, and drift-corrected rescheduling against `next_send_time`.

Modelling conventions: machine floats become `ℚ`; `time.time()` is one
explicit clock reading per tick (each tick is modelled as atomic at that
reading); the sink write is abstracted to a boolean outcome (`true` =
the write succeeded, `false` = the write raised `IOError`, the
`SinkClosed` of the specification); `threading.Timer`/`threading.Thread`
calls become an explicit `Sched` value describing what the tick
scheduled.
-/

/-- A numpy array: a shape together with the row-major flattened data.
Only the facts used by the source are modelled: the shape tuple that the
`assert` compares, and the element list that `np.clip(...).astype` maps
over. -/
structure NpArray where
  shape : List ℕ
  data : List ℚ
  deriving DecidableEq, Repr

/-- `np.ones((height, width, 3))`, the neutral all-ones frame both
schedulers seed `last_frame` with. -/
def npOnes (height width : ℕ) : NpArray :=
  { shape := [height, width, 3], data := List.replicate (height * width * 3) 1 }

/-- `np.clip x lo hi`: values below `lo` go to `lo`, values above `hi`
go to `hi`. -/
def npClip (x lo hi : ℚ) : ℚ := min (max x lo) hi

/-- One channel sample through `np.clip(255*frame, 0, 255).astype('uint8')`:
scale, clip into `[0, 255]`, then truncate toward zero (for the clipped
non-negative value that is the floor). -/
def sampleToByte (v : ℚ) : ℕ := (⌊npClip (255 * v) 0 255⌋).toNat

/-- Python truthiness of a `subprocess.poll()` result: `None` (process
still running) is falsy, an exit status is truthy exactly when it is
nonzero.  This is the test in `if self.pipe.poll(): self.reset()`. -/
def pollTruthy : Option ℤ → Bool
  | none => false
  | some c => decide (c ≠ 0)

/-- The errors `TwitchOutputStream.send_frame` can raise: the failed
shape `assert` (the specification's `InvalidShape`) and the `IOError` of
a write to a closed pipe (the specification's `SinkClosed`). -/
inductive SendErr
  | InvalidShape
  | SinkClosed
  deriving DecidableEq, Repr

/-- The observable outcome of one `TwitchOutputStream.send_frame` call:
whether `reset()` ran, the byte payloads written to the sink, and the
error raised, if any. -/
structure SendOutcome where
  did_reset : Bool
  written : List (List ℕ)
  error : Option SendErr
  deriving DecidableEq, Repr

/-- `TwitchOutputStream.send_frame` (the Immediate Stream).  In source
order: `if self.pipe.poll(): self.reset()`, then
`assert frame.shape == (self.height, self.width, 3)`, then
`np.clip(255*frame, 0, 255).astype('uint8')` written to the pipe.
`pollResult` is what `self.pipe.poll()` returns at this call and
`writeOk` is whether the pipe write succeeds. -/
def sendFrameImmediate (height width : ℕ) (pollResult : Option ℤ)
    (writeOk : Bool) (frame : NpArray) : SendOutcome :=
  let r := pollTruthy pollResult
  if frame.shape = [height, width, 3] then
    if writeOk then
      { did_reset := r, written := [frame.data.map sampleToByte], error := none }
    else
      { did_reset := r, written := [], error := some SendErr.SinkClosed }
  else
    { did_reset := r, written := [], error := some SendErr.InvalidShape }

/-- State of `TwitchOutputStreamRepeater`: the `lastframe` slot that the
producer overwrites and the tick re-sends. -/
structure RepeaterState where
  lastframe : NpArray
  deriving DecidableEq, Repr

/-- Result of one `TwitchOutputStreamRepeater._send_me_last_frame_again`
tick: the frame handed to the sink, whether the write succeeded, and the
delay of the `threading.Timer` the tick started (`none` when the
`except IOError` branch was taken and nothing was rescheduled). -/
structure RepTick where
  emitted : NpArray
  written : Bool
  next : Option ℚ
  deriving DecidableEq, Repr

/-- `TwitchOutputStreamRepeater._send_me_last_frame_again`: send
`self.lastframe`; on `IOError` pass and do not reschedule; otherwise
(`else` of the `try`) start `threading.Timer(1./self.fps, ...)`. -/
def repeaterTick (fps : ℚ) (s : RepeaterState) (sinkOk : Bool) : RepTick :=
  if sinkOk then
    { emitted := s.lastframe, written := true, next := some (1 / fps) }
  else
    { emitted := s.lastframe, written := false, next := none }

/-- Number of ticks the repeater loop executes when driven by a list of
sink outcomes: each tick runs, and only a successful tick perpetuates
the loop to the next outcome. -/
def repeaterRun (fps : ℚ) (s : RepeaterState) : List Bool → ℕ
  | [] => 0
  | ok :: rest =>
    match (repeaterTick fps s ok).next with
    | none => 1
    | some _ => 1 + repeaterRun fps s rest

/-- `TwitchOutputStreamRepeater.send_frame` from the producer: only
overwrites `self.lastframe`. -/
def repeaterSendFrame (_s : RepeaterState) (frame : NpArray) : RepeaterState :=
  { lastframe := frame }

/-- State of `TwitchBufferedOutputStream`: `last_frame`,
`last_frame_time` (set in `__init__`, never read), `next_send_time`,
`frame_counter`, and the contents of the `Queue.PriorityQueue` as a list
of `(frame_counter, frame)` entries in insertion order. -/
structure BufferedState where
  last_frame : NpArray
  last_frame_time : Option ℚ
  next_send_time : Option ℚ
  frame_counter : ℕ
  q : List (ℕ × NpArray)
  deriving DecidableEq, Repr

/-- `TwitchBufferedOutputStream.__init__`: all-ones `last_frame`, unset
times, zero counter, empty priority queue. -/
def BufferedState.init (height width : ℕ) : BufferedState :=
  { last_frame := npOnes height width
    last_frame_time := none
    next_send_time := none
    frame_counter := 0
    q := [] }

/-- `TwitchBufferedOutputStream.send_frame`: with an explicit
`frame_counter` insert `(frame_counter, frame)`; with `None` use and
post-increment `self.frame_counter`.  `Queue.PriorityQueue.put` adds the
entry (it never displaces an existing one).  This exception-free append
is accurate while all sequence numbers in the heap are distinct (the
Python 2 tuple comparison inside `heappush` then stops at the integer
key); inserting under a key already present makes the comparison fall
through to the numpy frames and raise, which this abstract model does
not show — see the faithful `heappush` below for that case. -/
def BufferedState.send_frame (s : BufferedState) (frame : NpArray) :
    Option ℕ → BufferedState
  | some k => { s with q := s.q ++ [(k, frame)] }
  | none =>
    { s with
      q := s.q ++ [(s.frame_counter, frame)]
      frame_counter := s.frame_counter + 1 }

/-- `Queue.PriorityQueue.get_nowait` on the modelled contents: remove
and return an entry whose key is minimal (the first such entry), or
`none` when the queue is empty (the `Queue.Empty` branch).  This total
min-removal is accurate while all keys in the heap are distinct; on a
heap holding equal keys the real sift can compare the numpy frames and
raise instead — see the faithful `heappop` below for that case. -/
def popMin : List (ℕ × NpArray) → Option ((ℕ × NpArray) × List (ℕ × NpArray))
  | [] => none
  | e :: rest =>
    match popMin rest with
    | none => some (e, [])
    | some (m, r) => if e.1 ≤ m.1 then some (e, rest) else some (m, e :: r)

/-- What a buffered tick scheduled: a `threading.Timer` with the given
delay, or an immediately started fresh `threading.Thread` (the
fallen-behind branch). -/
inductive Sched
  | timer (delay : ℚ)
  | thread
  deriving DecidableEq, Repr

/-- Result of one `TwitchBufferedOutputStream._send_me_last_frame_again`
tick: the updated object state, the frame handed to the sink, whether
the sink write succeeded, the sequence number popped from the queue (or
`none` on the repetition fallback), and what was scheduled. -/
structure TickResult where
  state : BufferedState
  emitted : NpArray
  written : Bool
  popped : Option ℕ
  sched : Sched
  deriving DecidableEq, Repr

/-- `TwitchBufferedOutputStream._send_me_last_frame_again`, one tick
taken as atomic at its single clock reading `start_time = time.time()`:
pop the minimal entry (on `Queue.Empty` fall back to `last_frame`,
otherwise the popped frame replaces `last_frame`); attempt the sink
write, swallowing `IOError`; then reschedule: on the very first tick
start `Timer(1/fps)` and set `next_send_time = start_time + 1/fps`,
otherwise advance `next_send_time` by `1/fps`, compute
`next_event_time = next_send_time - start_time`, and start a timer with
that delay when it is positive, else a fresh thread immediately. -/
def bufferedTick (fps : ℚ) (s : BufferedState) (start_time : ℚ)
    (sinkOk : Bool) : TickResult :=
  let pop := popMin s.q
  let frame := match pop with
    | some ((_, f), _) => f
    | none => s.last_frame
  let popped := match pop with
    | some ((k, _), _) => some k
    | none => none
  let q1 := match pop with
    | some (_, rest) => rest
    | none => s.q
  match s.next_send_time with
  | none =>
    { state :=
        { s with
          q := q1
          last_frame := frame
          next_send_time := some (start_time + 1 / fps) }
      emitted := frame
      written := sinkOk
      popped := popped
      sched := Sched.timer (1 / fps) }
  | some t =>
    let nst := t + 1 / fps
    let d := nst - start_time
    { state :=
        { s with
          q := q1
          last_frame := frame
          next_send_time := some nst }
      emitted := frame
      written := sinkOk
      popped := popped
      sched := if 0 < d then Sched.timer d else Sched.thread }

/-- Run a sequence of ticks (all with a live sink) at the given start
times, returning the final state and the emitted frames in order. -/
def runTicks (fps : ℚ) : BufferedState → List ℚ → BufferedState × List NpArray
  | s, [] => (s, [])
  | s, t :: ts =>
    let r := bufferedTick fps s t true
    let p := runTicks fps r.state ts
    (p.1, r.emitted :: p.2)

/-- An interleaving of producer calls and emission ticks:
`put k f` is `send_frame(f, frame_counter=k)` from a producer thread,
`tick t` is one `_send_me_last_frame_again` whose clock reads `t`. -/
inductive Ev
  | put (k : ℕ) (f : NpArray)
  | tick (t : ℚ)
  deriving DecidableEq, Repr

/-- Accumulated observation of a run: the current object state, the
frames handed to the sink so far, and the sequence numbers actually
popped from the queue so far (fallback ticks contribute nothing here). -/
structure RunAcc where
  state : BufferedState
  emitted : List NpArray
  popped : List ℕ
  deriving DecidableEq, Repr

/-- The empty observation over a freshly constructed stream. -/
def RunAcc.init (height width : ℕ) : RunAcc :=
  { state := BufferedState.init height width
    emitted := []
    popped := [] }

/-- Run an event trace (sink always live). -/
def runEvents (fps : ℚ) : RunAcc → List Ev → RunAcc
  | a, [] => a
  | a, Ev.put k f :: es =>
    runEvents fps { a with state := a.state.send_frame f (some k) } es
  | a, Ev.tick t :: es =>
    let r := bufferedTick fps a.state t true
    runEvents fps
      { state := r.state
        emitted := a.emitted ++ [r.emitted]
        popped := a.popped ++ r.popped.toList } es

/-- Checks that no producer call in the trace submits a sequence number
below a value already popped at the moment of the call ("no late
insertion"). -/
def noLatePuts (fps : ℚ) : RunAcc → List Ev → Bool
  | _, [] => true
  | a, Ev.put k f :: es =>
    a.popped.all (fun j => j ≤ k) &&
      noLatePuts fps { a with state := a.state.send_frame f (some k) } es
  | a, Ev.tick t :: es =>
    let r := bufferedTick fps a.state t true
    noLatePuts fps
      { state := r.state
        emitted := a.emitted ++ [r.emitted]
        popped := a.popped ++ r.popped.toList } es

/-!
The abstract queue model above (`BufferedState.send_frame`, `popMin`)
is exact while all sequence numbers in the heap are distinct.  When two
entries share a sequence number, CPython 2 behaves differently: the
heap operations compare whole `(frame_counter, frame)` tuples, a tie on
the integer key falls through to comparing the numpy frames, and the
truth test of the resulting elementwise comparison raises `ValueError`.
The definitions below embed `heapq.heappush`/`heapq.heappop` (Python
2.7 `Lib/heapq.py`) and the `Queue.PriorityQueue` wrappers with that
fallible comparison, keeping the list mutations a raising call leaves
behind, so that the duplicate-key behaviour can be settled against the
real control flow.
-/

/-- Exceptions of the Python 2 queue paths: the ambiguous-truth-value
`ValueError` from comparing two numpy frames, `IndexError` from
`list.pop()` on an empty list, and `Queue.Empty` from `get_nowait` on
an empty queue. -/
inductive PyExc
  | ValueError
  | IndexError
  | QueueEmpty
  deriving DecidableEq, Repr

/-- Entry returned by an out-of-range read; the modelled calls only
index in range (the `heapq` invariants guarantee it), so it is never
produced. -/
def dfltEntry : ℕ × NpArray := (0, { shape := [], data := [] })

/-- `heap[i]` on the Python list. -/
def hGet : List (ℕ × NpArray) → ℕ → ℕ × NpArray
  | [], _ => dfltEntry
  | e :: _, 0 => e
  | _ :: rest, i + 1 => hGet rest i

/-- `heap[i] = e` on the Python list. -/
def hSet : List (ℕ × NpArray) → ℕ → ℕ × NpArray → List (ℕ × NpArray)
  | [], _, _ => []
  | _ :: rest, 0, e => e :: rest
  | x :: rest, i + 1, e => x :: hSet rest i e

/-- Python 2 `cmp_lt` on two queue entries, i.e. the tuple comparison
`(k1, f1) < (k2, f2)`: the integer keys are compared first and decide
the result when they differ; on a tie the comparison falls through to
the frames, and testing the truth of an elementwise `==` of two
distinct `(h, w, 3)` numpy arrays (more than one element) raises
`ValueError`.  The frames are modelled as distinct array objects, the
case the duplicate-key claims quantify over; putting the very same
object twice instead takes the CPython identity shortcut and does not
raise, but object identity has no counterpart in a value model. -/
def entryLt (a b : ℕ × NpArray) : Except PyExc Bool :=
  if a.1 = b.1 then Except.error PyExc.ValueError
  else Except.ok (decide (a.1 < b.1))

/-- Loop of `heapq._siftdown(heap, startpos, pos)`: while
`pos > startpos`, compare `newitem` with the parent at `(pos - 1) / 2`;
move the parent down and continue when `newitem` is smaller, else stop;
finally write `newitem` at the current position.  A raising comparison
aborts the call and leaves the list as mutated so far (a Python
exception does not roll back list writes). -/
def siftdownLoop (startpos : ℕ) (newitem : ℕ × NpArray)
    (heap : List (ℕ × NpArray)) (pos : ℕ) :
    List (ℕ × NpArray) × Option PyExc :=
  if _h : startpos < pos then
    match entryLt newitem (hGet heap ((pos - 1) / 2)) with
    | Except.error e => (heap, some e)
    | Except.ok true =>
      siftdownLoop startpos newitem
        (hSet heap pos (hGet heap ((pos - 1) / 2))) ((pos - 1) / 2)
    | Except.ok false => (hSet heap pos newitem, none)
  else (hSet heap pos newitem, none)
termination_by pos
decreasing_by simp_wf; omega

/-- `heapq._siftdown` as called: read `newitem = heap[pos]`, then run
the loop. -/
def siftdown (heap : List (ℕ × NpArray)) (startpos pos : ℕ) :
    List (ℕ × NpArray) × Option PyExc :=
  siftdownLoop startpos (hGet heap pos) heap pos

/-- `heapq.heappush(heap, item)`: append the item, then sift it down
toward the root from position `len(heap) - 1`.  The append precedes the
sift, so when the sift's first comparison raises, the item is already
in the list: the caller sees the exception but the entry stays. -/
def heappush (heap : List (ℕ × NpArray)) (item : ℕ × NpArray) :
    List (ℕ × NpArray) × Option PyExc :=
  siftdown (heap ++ [item]) 0 heap.length

/-- Loop of `heapq._siftup(heap, pos)`: walk down from `pos`, at each
level choosing the smaller child (the two children are compared when
both exist, a comparison that can raise) and moving it up; return the
final position for the closing `_siftdown`. -/
def siftupLoop (endpos : ℕ) (heap : List (ℕ × NpArray)) (pos : ℕ) :
    List (ℕ × NpArray) × ℕ × Option PyExc :=
  if hc : 2 * pos + 1 < endpos then
    if hr : 2 * pos + 2 < endpos then
      match entryLt (hGet heap (2 * pos + 1)) (hGet heap (2 * pos + 2)) with
      | Except.error e => (heap, pos, some e)
      | Except.ok true =>
        siftupLoop endpos (hSet heap pos (hGet heap (2 * pos + 1)))
          (2 * pos + 1)
      | Except.ok false =>
        siftupLoop endpos (hSet heap pos (hGet heap (2 * pos + 2)))
          (2 * pos + 2)
    else
      siftupLoop endpos (hSet heap pos (hGet heap (2 * pos + 1)))
        (2 * pos + 1)
  else (heap, pos, none)
termination_by endpos - pos
decreasing_by all_goals simp_wf; omega

/-- `heapq._siftup`: run the walk-down loop, then write `newitem` (read
from the original position before the loop) at the final position and
close with `_siftdown` from there back toward the original position;
it is this closing sift whose comparison raises on a heap holding equal
keys.  On an exception the list keeps the mutations applied so far. -/
def siftup (heap : List (ℕ × NpArray)) (pos : ℕ) :
    List (ℕ × NpArray) × Option PyExc :=
  match siftupLoop heap.length heap pos with
  | (h1, _, some e) => (h1, some e)
  | (h1, pos1, none) => siftdown (hSet h1 pos1 (hGet heap pos)) pos pos1

/-- `heapq.heappop(heap)`: `heap.pop()` removes the last element
(`IndexError` when the list is empty); if entries remain, the root is
the return value, the popped last element is written to the root and
sifted up.  When the sift raises, the exception propagates with the
return value never delivered: the old root is lost from the queue. -/
def heappop (heap : List (ℕ × NpArray)) :
    List (ℕ × NpArray) × Except PyExc (ℕ × NpArray) :=
  match heap.getLast? with
  | none => (heap, Except.error PyExc.IndexError)
  | some lastelt =>
    let h1 := heap.dropLast
    if h1.isEmpty then (h1, Except.ok lastelt)
    else
      match siftup (hSet h1 0 lastelt) 0 with
      | (h2, none) => (h2, Except.ok (hGet h1 0))
      | (h2, some e) => (h2, Except.error e)

/-- `Queue.get_nowait` on the priority queue: `Queue.Empty` when
`_qsize()` is zero, else `heappop`, whose `ValueError` propagates to
the caller. -/
def getNowaitP2 (heap : List (ℕ × NpArray)) :
    List (ℕ × NpArray) × Except PyExc (ℕ × NpArray) :=
  if heap.isEmpty then (heap, Except.error PyExc.QueueEmpty)
  else heappop heap

/-- `Queue.put`, i.e. `TwitchBufferedOutputStream.send_frame` with an
explicit counter, over the faithful heap: `heappush`, whose
`ValueError` propagates to the producer thread while the mutated heap
stays behind. -/
def putP2 (heap : List (ℕ × NpArray)) (k : ℕ) (f : NpArray) :
    List (ℕ × NpArray) × Option PyExc :=
  heappush heap (k, f)

/-- Observable outcome of one `_send_me_last_frame_again` over the
faithful heap.  `emitted = none` with `rescheduled = false` means an
exception escaped the tick's `except IndexError` and
`except Queue.Empty` clauses before the send and before the scheduling
block, killing the emission thread. -/
structure P2TickResult where
  heap : List (ℕ × NpArray)
  emitted : Option NpArray
  last_frame : NpArray
  popped : Option ℕ
  rescheduled : Bool
  deriving DecidableEq, Repr

/-- `TwitchBufferedOutputStream._send_me_last_frame_again` over the
faithful heap (the drift-correction arithmetic is as in `bufferedTick`
and is summarised here by the `rescheduled` flag): a returned entry is
emitted and replaces `last_frame`; `IndexError` and `Queue.Empty` fall
back to repeating `last_frame`; a `ValueError` out of the heap sift is
caught by neither clause, so the tick dies with no send and no
rescheduling. -/
def bufferedTickP2 (last_frame : NpArray) (heap : List (ℕ × NpArray)) :
    P2TickResult :=
  match getNowaitP2 heap with
  | (h, Except.ok e) =>
    { heap := h
      emitted := some e.2
      last_frame := e.2
      popped := some e.1
      rescheduled := true }
  | (h, Except.error PyExc.QueueEmpty) =>
    { heap := h
      emitted := some last_frame
      last_frame := last_frame
      popped := none
      rescheduled := true }
  | (h, Except.error PyExc.IndexError) =>
    { heap := h
      emitted := some last_frame
      last_frame := last_frame
      popped := none
      rescheduled := true }
  | (h, Except.error PyExc.ValueError) =>
    { heap := h
      emitted := none
      last_frame := last_frame
      popped := none
      rescheduled := false }

/-- Concrete frame for the duplicate-key scenario, pairwise distinct
from `frameB` and `frameC`. -/
def frameA : NpArray := { shape := [1, 1, 3], data := [0, 0, 0] }

/-- Second concrete frame for the duplicate-key scenario. -/
def frameB : NpArray := { shape := [1, 1, 3], data := [1, 0, 0] }

/-- Third concrete frame for the duplicate-key scenario. -/
def frameC : NpArray := { shape := [1, 1, 3], data := [0, 1, 0] }

theorem popMin_eq_none {q : List (ℕ × NpArray)} :
    popMin q = none ↔ q = [] := by
  cases q with
  | nil => simp [popMin]
  | cons e rest =>
    simp only [popMin]
    cases h : popMin rest with
    | none => simp
    | some p => cases p with
      | mk m r => by_cases hle : e.1 ≤ m.1 <;> simp [hle]

theorem popMin_mem {q r : List (ℕ × NpArray)} {m : ℕ × NpArray}
    (h : popMin q = some (m, r)) : m ∈ q := by
  induction q generalizing m r with
  | nil => simp [popMin] at h
  | cons e rest ih =>
    simp only [popMin] at h
    cases hr : popMin rest with
    | none =>
      rw [hr] at h
      simp only [Option.some.injEq, Prod.mk.injEq] at h
      exact h.1 ▸ List.mem_cons_self e rest
    | some p =>
      rcases p with ⟨m', r'⟩
      rw [hr] at h
      dsimp only at h
      by_cases hle : e.1 ≤ m'.1
      · rw [if_pos hle] at h
        simp only [Option.some.injEq, Prod.mk.injEq] at h
        exact h.1 ▸ List.mem_cons_self e rest
      · rw [if_neg hle] at h
        simp only [Option.some.injEq, Prod.mk.injEq] at h
        exact h.1 ▸ List.mem_cons_of_mem e (ih hr)

theorem popMin_min {q r : List (ℕ × NpArray)} {m : ℕ × NpArray}
    (h : popMin q = some (m, r)) : ∀ x ∈ q, m.1 ≤ x.1 := by
  induction q generalizing m r with
  | nil => simp [popMin] at h
  | cons e rest ih =>
    simp only [popMin] at h
    cases hr : popMin rest with
    | none =>
      rw [hr] at h
      simp only [Option.some.injEq, Prod.mk.injEq] at h
      have hrest : rest = [] := popMin_eq_none.mp hr
      subst hrest
      intro x hx
      simp only [List.mem_singleton] at hx
      exact hx ▸ h.1 ▸ le_refl _
    | some p =>
      rcases p with ⟨m', r'⟩
      rw [hr] at h
      dsimp only at h
      by_cases hle : e.1 ≤ m'.1
      · rw [if_pos hle] at h
        simp only [Option.some.injEq, Prod.mk.injEq] at h
        intro x hx
        rcases List.mem_cons.mp hx with hx | hx
        · exact hx ▸ h.1 ▸ le_refl _
        · exact h.1 ▸ le_trans hle (ih hr x hx)
      · rw [if_neg hle] at h
        simp only [Option.some.injEq, Prod.mk.injEq] at h
        intro x hx
        rcases List.mem_cons.mp hx with hx | hx
        · exact hx ▸ h.1 ▸ le_of_lt (lt_of_not_le hle)
        · exact h.1 ▸ ih hr x hx

theorem popMin_rest_mem {q r : List (ℕ × NpArray)} {m : ℕ × NpArray}
    (h : popMin q = some (m, r)) : ∀ x ∈ r, x ∈ q := by
  induction q generalizing m r with
  | nil => simp [popMin] at h
  | cons e rest ih =>
    simp only [popMin] at h
    cases hr : popMin rest with
    | none =>
      rw [hr] at h
      simp only [Option.some.injEq, Prod.mk.injEq] at h
      intro x hx
      rw [← h.2] at hx
      simp at hx
    | some p =>
      rcases p with ⟨m', r'⟩
      rw [hr] at h
      dsimp only at h
      by_cases hle : e.1 ≤ m'.1
      · rw [if_pos hle] at h
        simp only [Option.some.injEq, Prod.mk.injEq] at h
        intro x hx
        rw [← h.2] at hx
        exact List.mem_cons_of_mem e hx
      · rw [if_neg hle] at h
        simp only [Option.some.injEq, Prod.mk.injEq] at h
        intro x hx
        rw [← h.2] at hx
        rcases List.mem_cons.mp hx with hx | hx
        · exact hx ▸ List.mem_cons_self e rest
        · exact List.mem_cons_of_mem e (ih hr x hx)

/-- A concrete 1 by 1 frame whose three channel samples are all `1/2`,
used to exercise the 8-bit conversion at the midpoint value. -/
def halfFrame : NpArray := { shape := [1, 1, 3], data := [1/2, 1/2, 1/2] }

/-- C4: on a Repeater tick, a `SinkClosed` failure is swallowed and
nothing is rescheduled (the loop never runs another tick), while a
successful write schedules exactly one next tick `1/fps` after the
current tick finishes; either way the frame handed to the sink is
`lastframe`. -/
theorem repeater_reschedule_policy (fps : ℚ) (s : RepeaterState) :
    (repeaterTick fps s false).next = none ∧
    (repeaterTick fps s false).emitted = s.lastframe ∧
    (repeaterTick fps s true).next = some (1 / fps) ∧
    (repeaterTick fps s true).emitted = s.lastframe ∧
    ∀ outcomes : List Bool, repeaterRun fps s (false :: outcomes) = 1 :=
  ⟨rfl, rfl, rfl, rfl, fun _ => rfl⟩

/-- C5: a Buffered tick behaves identically on a failed and on a
successful sink write in every observable respect except the write
itself: same state update, same popped entry, same candidate frame, and
the same (always present) rescheduling decision. -/
theorem buffered_reschedules_despite_sink_failure (fps : ℚ)
    (s : BufferedState) (t : ℚ) :
    (bufferedTick fps s t false).state = (bufferedTick fps s t true).state ∧
    (bufferedTick fps s t false).sched = (bufferedTick fps s t true).sched ∧
    (bufferedTick fps s t false).emitted = (bufferedTick fps s t true).emitted ∧
    (bufferedTick fps s t false).popped = (bufferedTick fps s t true).popped ∧
    (bufferedTick fps s t false).written = false ∧
    (bufferedTick fps s t true).written = true := by
  obtain ⟨lf, lft, nst, fc, q⟩ := s
  cases nst <;> exact ⟨rfl, rfl, rfl, rfl, rfl, rfl⟩

/-- C8: a frame whose shape differs from the configured
`(height, width, 3)` makes `send_frame` fail the shape assertion
(`InvalidShape`) and nothing is written to the sink. -/
theorem send_frame_invalid_shape (height width : ℕ) (pollResult : Option ℤ)
    (writeOk : Bool) (frame : NpArray)
    (h : frame.shape ≠ [height, width, 3]) :
    (sendFrameImmediate height width pollResult writeOk frame).error =
        some SendErr.InvalidShape ∧
    (sendFrameImmediate height width pollResult writeOk frame).written = [] := by
  unfold sendFrameImmediate
  rw [if_neg h]
  exact ⟨rfl, rfl⟩

/-- Witness for `send_frame_invalid_shape` at a concrete mismatched
frame. -/
theorem send_frame_invalid_shape_witness :
    (sendFrameImmediate 2 2 none true
        { shape := [1, 1, 3], data := [0, 0, 0] }).error =
        some SendErr.InvalidShape ∧
    (sendFrameImmediate 2 2 none true
        { shape := [1, 1, 3], data := [0, 0, 0] }).written = [] :=
  send_frame_invalid_shape 2 2 none true _ (by decide)

/-- C9: the liveness check `if self.pipe.poll(): self.reset()` misses a
sink process that exited with status 0: `poll()` then returns `0`, which
is falsy in Python, so `reset()` is not invoked, although it is invoked
for any nonzero exit status. -/
theorem send_frame_poll_exit_zero_no_reset :
    pollTruthy (some 0) = false ∧
    (sendFrameImmediate 1 1 (some 0) true (npOnes 1 1)).did_reset = false ∧
    pollTruthy (some 1) = true ∧
    (sendFrameImmediate 1 1 (some 1) true (npOnes 1 1)).did_reset = true ∧
    (sendFrameImmediate 1 1 none true (npOnes 1 1)).did_reset = false := by
  refine ⟨rfl, ?_, rfl, ?_, ?_⟩ <;> decide

/-- Counterexample to C7 as stated: at the channel value `1/2` the code
writes `trunc(clip(255 x 0.5, 0, 255)) = 127`, while
`round(clip(255 x 0.5, 0, 255)) = 128`. -/
theorem sample_conversion_truncates_not_rounds :
    (sendFrameImmediate 1 1 none true halfFrame).written = [[127, 127, 127]] ∧
    round (npClip (255 * (1/2 : ℚ)) 0 255) = (128 : ℤ) ∧
    (127 : ℤ) ≠ 128 := by
  have hclip : npClip (255 * (1/2 : ℚ)) 0 255 = 255/2 := by
    unfold npClip
    rw [show ((255 : ℚ) * (1/2)) = 255/2 by norm_num,
      max_eq_left (by norm_num : (0:ℚ) ≤ 255/2),
      min_eq_left (by norm_num : (255:ℚ)/2 ≤ 255)]
  have hs : sampleToByte (1/2) = 127 := by
    unfold sampleToByte
    rw [hclip]
    have hf : (⌊(255/2 : ℚ)⌋ : ℤ) = 127 := by
      rw [Int.floor_eq_iff]
      norm_num
    rw [hf]
    rfl
  have hr : round (npClip (255 * (1/2 : ℚ)) 0 255) = (128 : ℤ) := by
    rw [hclip, round_eq, show (255/2 + 1/2 : ℚ) = 128 by norm_num,
      Int.floor_eq_iff]
    norm_num
  have hs2 : sampleToByte ((2:ℚ)⁻¹) = 127 := by
    rw [← one_div]
    exact hs
  refine ⟨?_, hr, by decide⟩
  simp [sendFrameImmediate, halfFrame, hs2]

/-- C7 (amended): the Immediate Stream converts each channel sample to
`trunc(clip(255 v, 0, 255))`; on `[0, 1]` this is `⌊255 v⌋`, values at
or below 0 clip to 0, values at or above 1 clip to 255. -/
theorem send_frame_byte_conversion (height width : ℕ)
    (pollResult : Option ℤ) (frame : NpArray)
    (h : frame.shape = [height, width, 3]) :
    (sendFrameImmediate height width pollResult true frame).written =
        [frame.data.map sampleToByte] ∧
    (∀ v : ℚ, 0 ≤ v → v ≤ 1 → sampleToByte v = (⌊(255 : ℚ) * v⌋).toNat) ∧
    (∀ v : ℚ, v ≤ 0 → sampleToByte v = 0) ∧
    (∀ v : ℚ, 1 ≤ v → sampleToByte v = 255) := by
  refine ⟨?_, ?_, ?_, ?_⟩
  · simp [sendFrameImmediate, h]
  · intro v h0 h1
    have ha : (0 : ℚ) ≤ 255 * v := by positivity
    have hb : (255 : ℚ) * v ≤ 255 := by nlinarith
    unfold sampleToByte npClip
    rw [max_eq_left ha, min_eq_left hb]
  · intro v hv
    have ha : (255 : ℚ) * v ≤ 0 := by nlinarith
    unfold sampleToByte npClip
    rw [max_eq_right ha]
    norm_num
  · intro v hv
    have ha : (255 : ℚ) ≤ 255 * v := by nlinarith
    have hb : (0 : ℚ) ≤ 255 * v := by nlinarith
    unfold sampleToByte npClip
    rw [max_eq_left hb, min_eq_right ha]
    norm_num
    decide

/-- Witness for `send_frame_byte_conversion`: the all-halves frame and
the boundary values `1/2`, `-1/10` and `11/10`. -/
theorem send_frame_byte_conversion_witness :
    (sendFrameImmediate 1 1 none true halfFrame).written =
        [halfFrame.data.map sampleToByte] ∧
    sampleToByte (1/2) = (⌊(255 : ℚ) * (1/2)⌋).toNat ∧
    sampleToByte (-1/10) = 0 ∧
    sampleToByte (11/10) = 255 := by
  have h := send_frame_byte_conversion 1 1 none halfFrame (by decide)
  exact ⟨h.1, h.2.1 (1/2) (by norm_num) (by norm_num),
    h.2.2.1 (-1/10) (by norm_num), h.2.2.2 (11/10) (by norm_num)⟩

theorem bufferedTick_nst_none (fps : ℚ) (s : BufferedState) (t : ℚ)
    (ok : Bool) (h : s.next_send_time = none) :
    (bufferedTick fps s t ok).sched = Sched.timer (1 / fps) ∧
    (bufferedTick fps s t ok).state.next_send_time = some (t + 1 / fps) := by
  unfold bufferedTick
  rw [h]
  exact ⟨rfl, rfl⟩

theorem bufferedTick_nst_some (fps : ℚ) (s : BufferedState) (t x : ℚ)
    (ok : Bool) (h : s.next_send_time = some x) :
    (bufferedTick fps s t ok).state.next_send_time = some (x + 1 / fps) ∧
    (0 < x + 1 / fps - t →
      (bufferedTick fps s t ok).sched = Sched.timer (x + 1 / fps - t)) := by
  unfold bufferedTick
  rw [h]
  refine ⟨rfl, fun hd => ?_⟩
  dsimp only
  rw [if_pos hd]

theorem bufferedTick_empty (fps : ℚ) (s : BufferedState) (t : ℚ)
    (ok : Bool) (h : s.q = []) :
    (bufferedTick fps s t ok).emitted = s.last_frame ∧
    (bufferedTick fps s t ok).state.last_frame = s.last_frame ∧
    (bufferedTick fps s t ok).popped = none ∧
    (bufferedTick fps s t ok).state.q = [] := by
  unfold bufferedTick
  rw [h]
  cases s.next_send_time <;> exact ⟨rfl, rfl, rfl, rfl⟩

theorem bufferedTick_pop (fps : ℚ) (s : BufferedState) (t : ℚ) (ok : Bool)
    {m : ℕ × NpArray} {rest : List (ℕ × NpArray)}
    (hp : popMin s.q = some (m, rest)) :
    (bufferedTick fps s t ok).popped = some m.1 ∧
    (bufferedTick fps s t ok).emitted = m.2 ∧
    (bufferedTick fps s t ok).state.last_frame = m.2 ∧
    (bufferedTick fps s t ok).state.q = rest := by
  unfold bufferedTick
  rw [hp]
  cases s.next_send_time <;> exact ⟨rfl, rfl, rfl, rfl⟩

theorem runTicks_nst (fps : ℚ) (ts : List ℚ) :
    ∀ (s : BufferedState) (x : ℚ), s.next_send_time = some x →
      (runTicks fps s ts).1.next_send_time =
        some (x + (ts.length : ℚ) * (1 / fps)) := by
  induction ts with
  | nil =>
    intro s x h
    simpa using h
  | cons t ts ih =>
    intro s x h
    have hstep := (bufferedTick_nst_some fps s t x true h).1
    have := ih (bufferedTick fps s t true).state (x + 1 / fps) hstep
    simp only [runTicks]
    rw [this, List.length_cons]
    congr 1
    push_cast
    ring

/-- C1: drift-corrected rescheduling.  On the very first tick
(`next_send_time` unset) the next tick is scheduled `1/fps` from the
tick's clock reading and `next_send_time` becomes `start_time + 1/fps`;
on every later tick `next_send_time` is advanced by exactly `1/fps`, the
delay is computed as `next_send_time - start_time`, and a positive delay
schedules a timer with exactly that delay; consequently after `k` ticks
`next_send_time` equals the first tick's `start_time` plus `k/fps`,
whatever the later ticks' actual clock readings are. -/
theorem buffered_drift_correction (fps : ℚ) :
    (∀ (s : BufferedState) (t : ℚ) (ok : Bool), s.next_send_time = none →
      (bufferedTick fps s t ok).sched = Sched.timer (1 / fps) ∧
      (bufferedTick fps s t ok).state.next_send_time = some (t + 1 / fps)) ∧
    (∀ (s : BufferedState) (t x : ℚ) (ok : Bool), s.next_send_time = some x →
      (bufferedTick fps s t ok).state.next_send_time = some (x + 1 / fps) ∧
      (0 < x + 1 / fps - t →
        (bufferedTick fps s t ok).sched = Sched.timer (x + 1 / fps - t))) ∧
    (∀ (s : BufferedState) (t0 : ℚ) (ts : List ℚ), s.next_send_time = none →
      (runTicks fps s (t0 :: ts)).1.next_send_time =
        some (t0 + ((ts.length + 1 : ℕ) : ℚ) / fps)) := by
  refine ⟨fun s t ok h => bufferedTick_nst_none fps s t ok h,
    fun s t x ok h => bufferedTick_nst_some fps s t x ok h, ?_⟩
  intro s t0 ts h
  have h1 := (bufferedTick_nst_none fps s t0 true h).2
  have h2 := runTicks_nst fps ts (bufferedTick fps s t0 true).state
    (t0 + 1 / fps) h1
  simp only [runTicks]
  rw [h2]
  congr 1
  push_cast
  ring

/-- Witness for `buffered_drift_correction`: `fps = 30`, a first tick at
`t = 2`, a later tick from `next_send_time = 10` read at `t = 5`, and a
three-tick run started at `t0 = 0`. -/
theorem buffered_drift_correction_witness :
    ((bufferedTick 30 (BufferedState.init 1 1) 2 true).sched =
        Sched.timer (1 / 30) ∧
      (bufferedTick 30 (BufferedState.init 1 1) 2 true).state.next_send_time =
        some (2 + 1 / 30)) ∧
    ((bufferedTick 30 { BufferedState.init 1 1 with next_send_time := some 10 }
        5 true).state.next_send_time = some (10 + 1 / 30) ∧
      (bufferedTick 30 { BufferedState.init 1 1 with next_send_time := some 10 }
        5 true).sched = Sched.timer (10 + 1 / 30 - 5)) ∧
    (runTicks 30 (BufferedState.init 1 1) [0, 7, 9]).1.next_send_time =
      some (0 + ((2 + 1 : ℕ) : ℚ) / 30) := by
  have h := buffered_drift_correction 30
  have h2 := h.2.1 { BufferedState.init 1 1 with next_send_time := some 10 }
    5 10 true rfl
  exact ⟨h.1 (BufferedState.init 1 1) 2 true rfl,
    ⟨h2.1, h2.2 (by norm_num)⟩,
    h.2.2 (BufferedState.init 1 1) 0 [7, 9] rfl⟩

/-- C6: a tick that finds the queue empty emits the current
`last_frame` and leaves it unchanged; `last_frame` starts as the
all-ones neutral frame; hence N consecutive empty-queue ticks emit
exactly N repeats of the last emitted (or initial neutral) frame. -/
theorem buffered_empty_queue_repeats (fps : ℚ) :
    (∀ height width : ℕ,
      (BufferedState.init height width).last_frame = npOnes height width ∧
      (BufferedState.init height width).q = []) ∧
    (∀ (s : BufferedState) (t : ℚ) (ok : Bool), s.q = [] →
      (bufferedTick fps s t ok).emitted = s.last_frame ∧
      (bufferedTick fps s t ok).state.last_frame = s.last_frame ∧
      (bufferedTick fps s t ok).popped = none) ∧
    (∀ (s : BufferedState) (ts : List ℚ), s.q = [] →
      (runTicks fps s ts).2 = List.replicate ts.length s.last_frame ∧
      (runTicks fps s ts).1.last_frame = s.last_frame ∧
      (runTicks fps s ts).1.q = []) := by
  refine ⟨fun height width => ⟨rfl, rfl⟩,
    fun s t ok h =>
      ⟨(bufferedTick_empty fps s t ok h).1, (bufferedTick_empty fps s t ok h).2.1,
        (bufferedTick_empty fps s t ok h).2.2.1⟩, ?_⟩
  intro s ts
  induction ts generalizing s with
  | nil => intro h; exact ⟨rfl, rfl, h⟩
  | cons t ts ih =>
    intro h
    obtain ⟨he, hl, _, hq⟩ := bufferedTick_empty fps s t true h
    obtain ⟨ih1, ih2, ih3⟩ := ih (bufferedTick fps s t true).state hq
    simp only [runTicks]
    refine ⟨?_, ?_, ih3⟩
    · rw [ih1, he, hl, List.length_cons, List.replicate_succ]
    · rw [ih2, hl]

/-- Witness for `buffered_empty_queue_repeats`: a fresh stream and three
empty-queue ticks. -/
theorem buffered_empty_queue_repeats_witness :
    ((BufferedState.init 1 1).last_frame = npOnes 1 1 ∧
      (BufferedState.init 1 1).q = []) ∧
    ((bufferedTick 30 (BufferedState.init 1 1) 0 true).emitted =
        (BufferedState.init 1 1).last_frame ∧
      (bufferedTick 30 (BufferedState.init 1 1) 0 true).state.last_frame =
        (BufferedState.init 1 1).last_frame ∧
      (bufferedTick 30 (BufferedState.init 1 1) 0 true).popped = none) ∧
    (runTicks 30 (BufferedState.init 1 1) [0, 1, 2]).2 =
      List.replicate 3 (BufferedState.init 1 1).last_frame := by
  have h := buffered_empty_queue_repeats 30
  exact ⟨h.1 1 1, h.2.1 (BufferedState.init 1 1) 0 true rfl,
    (h.2.2 (BufferedState.init 1 1) [0, 1, 2] rfl).1⟩

/-- C2: a tick that finds the queue non-empty pops an entry carrying the
minimum sequence number currently present (and emits that entry's
frame); in particular submitting sequence numbers 2, 0, 1 in that
arrival order before the first tick yields emission order 0, 1, 2. -/
theorem buffered_pops_minimum (fps : ℚ) :
    (∀ (s : BufferedState) (t : ℚ) (ok : Bool), s.q ≠ [] →
      ∃ k : ℕ, (bufferedTick fps s t ok).popped = some k ∧
        (∀ x ∈ s.q, k ≤ x.1) ∧
        (k, (bufferedTick fps s t ok).emitted) ∈ s.q) ∧
    (∀ (height width : ℕ) (f0 f1 f2 : NpArray) (t0 t1 t2 : ℚ),
      (runEvents fps (RunAcc.init height width)
          [Ev.put 2 f2, Ev.put 0 f0, Ev.put 1 f1,
            Ev.tick t0, Ev.tick t1, Ev.tick t2]).popped = [0, 1, 2] ∧
      (runEvents fps (RunAcc.init height width)
          [Ev.put 2 f2, Ev.put 0 f0, Ev.put 1 f1,
            Ev.tick t0, Ev.tick t1, Ev.tick t2]).emitted = [f0, f1, f2]) := by
  constructor
  · intro s t ok h
    cases hp : popMin s.q with
    | none => exact absurd (popMin_eq_none.mp hp) h
    | some p =>
      obtain ⟨m, rest⟩ := p
      obtain ⟨h1, h2, _, _⟩ := bufferedTick_pop fps s t ok hp
      refine ⟨m.1, h1, popMin_min hp, ?_⟩
      rw [h2]
      exact popMin_mem hp
  · intro height width f0 f1 f2 t0 t1 t2
    constructor <;>
      simp [runEvents, RunAcc.init, BufferedState.init,
        BufferedState.send_frame, bufferedTick, popMin]

/-- Witness for `buffered_pops_minimum`: a queue holding sequence
numbers 7 and 5; the tick pops 5. -/
theorem buffered_pops_minimum_witness :
    ∃ k : ℕ,
      (bufferedTick 30 (((BufferedState.init 1 1).send_frame (npOnes 1 1)
          (some 7)).send_frame halfFrame (some 5)) 0 true).popped = some k ∧
      (∀ x ∈ (((BufferedState.init 1 1).send_frame (npOnes 1 1)
          (some 7)).send_frame halfFrame (some 5)).q, k ≤ x.1) ∧
      (k, (bufferedTick 30 (((BufferedState.init 1 1).send_frame (npOnes 1 1)
          (some 7)).send_frame halfFrame (some 5)) 0 true).emitted) ∈
        (((BufferedState.init 1 1).send_frame (npOnes 1 1)
          (some 7)).send_frame halfFrame (some 5)).q :=
  (buffered_pops_minimum 30).1 _ 0 true (by decide)

theorem noLatePuts_sorted (fps : ℚ) (es : List Ev) :
    ∀ a : RunAcc, noLatePuts fps a es = true →
      List.Sorted (· ≤ ·) a.popped →
      (∀ x ∈ a.state.q, ∀ j ∈ a.popped, j ≤ x.1) →
      List.Sorted (· ≤ ·) (runEvents fps a es).popped := by
  induction es with
  | nil =>
    intro a _ hs _
    exact hs
  | cons e es ih =>
    intro a hn hs hq
    cases e with
    | put k f =>
      simp only [noLatePuts, Bool.and_eq_true, List.all_eq_true,
        decide_eq_true_eq] at hn
      simp only [runEvents]
      apply ih _ hn.2 hs
      intro x hx j hj
      have hx' : x ∈ a.state.q ++ [(k, f)] := hx
      rcases List.mem_append.mp hx' with hm | hm
      · exact hq x hm j hj
      · rw [List.mem_singleton] at hm
        subst hm
        exact hn.1 j hj
    | tick t =>
      simp only [noLatePuts] at hn
      simp only [runEvents]
      cases hp : popMin a.state.q with
      | none =>
        have hqe : a.state.q = [] := popMin_eq_none.mp hp
        obtain ⟨-, -, hpn, hq2⟩ := bufferedTick_empty fps a.state t true hqe
        refine ih _ hn ?_ ?_
        · simpa [hpn] using hs
        · intro x hx j hj
          simp only [hq2] at hx
          exact absurd hx (List.not_mem_nil x)
      | some p =>
        obtain ⟨m, rest⟩ := p
        obtain ⟨h1, -, -, h4⟩ := bufferedTick_pop fps a.state t true hp
        refine ih _ hn ?_ ?_
        · simp only [h1, Option.toList_some]
          refine List.pairwise_append.mpr ⟨hs, by simp, ?_⟩
          intro j hj b hb
          rw [List.mem_singleton] at hb
          subst hb
          exact hq m (popMin_mem hp) j hj
        · intro x hx j hj
          simp only [h4] at hx
          simp only [h1, Option.toList_some] at hj
          rcases List.mem_append.mp hj with hj | hj
          · exact hq x (popMin_rest_mem hp x hx) j hj
          · rw [List.mem_singleton] at hj
            subst hj
            exact popMin_min hp x (popMin_rest_mem hp x hx)

/-- C3 (amended): the sequence numbers actually popped from the queue
form a non-decreasing sequence provided no producer call submits a
sequence number below a value already popped at the moment of the call;
without that proviso a late submission is popped after a larger value
(see the counterexample). -/
theorem buffered_popped_monotone (fps : ℚ) (height width : ℕ)
    (es : List Ev)
    (h : noLatePuts fps (RunAcc.init height width) es = true) :
    List.Sorted (· ≤ ·)
      (runEvents fps (RunAcc.init height width) es).popped :=
  noLatePuts_sorted fps es (RunAcc.init height width) h List.sorted_nil
    (fun x hx => absurd hx (List.not_mem_nil x))

/-- Counterexample to C3 as stated: submit 5, tick (pops 5), submit 3,
tick (pops 3); the popped sequence [5, 3] is decreasing, so the claimed
guarantee does not survive submissions below already-popped values. -/
theorem buffered_popped_can_decrease :
    (runEvents 30 (RunAcc.init 1 1)
        [Ev.put 5 halfFrame, Ev.tick 0, Ev.put 3 halfFrame,
          Ev.tick 1]).popped = [5, 3] ∧
    ¬ List.Sorted (· ≤ ·) (runEvents 30 (RunAcc.init 1 1)
        [Ev.put 5 halfFrame, Ev.tick 0, Ev.put 3 halfFrame,
          Ev.tick 1]).popped := by
  have h1 : (runEvents 30 (RunAcc.init 1 1)
      [Ev.put 5 halfFrame, Ev.tick 0, Ev.put 3 halfFrame,
        Ev.tick 1]).popped = [5, 3] := by decide
  refine ⟨h1, ?_⟩
  rw [h1]
  norm_num [List.sorted_cons]

/-- Witness for `buffered_popped_monotone`: an interleaved trace with
no late submissions. -/
theorem buffered_popped_monotone_witness :
    noLatePuts 30 (RunAcc.init 1 1)
        [Ev.put 2 halfFrame, Ev.put 0 halfFrame, Ev.tick 0,
          Ev.put 1 halfFrame, Ev.tick 1, Ev.tick 2] = true ∧
    List.Sorted (· ≤ ·) (runEvents 30 (RunAcc.init 1 1)
        [Ev.put 2 halfFrame, Ev.put 0 halfFrame, Ev.tick 0,
          Ev.put 1 halfFrame, Ev.tick 1, Ev.tick 2]).popped :=
  ⟨by decide, buffered_popped_monotone 30 1 1 _ (by decide)⟩

/-- Counterexample to C10 as stated: with pairwise-distinct frames all
submitted under sequence number 0, the second and the third `put` raise
`ValueError` into the producer (the insertions are not clean multiset
additions), and the emission tick over the three-entry heap raises
`ValueError` uncaught: nothing is emitted, the tick does not
reschedule, and the entry `(0, frameA)` is lost from the queue — so it
is false that both insertions succeed and each entry is emitted by its
own emission tick. -/
theorem duplicate_seq_puts_raise_and_tick_dies :
    putP2 [(0, frameA)] 0 frameB =
      ([(0, frameA), (0, frameB)], some PyExc.ValueError) ∧
    putP2 [(0, frameA), (0, frameB)] 0 frameC =
      ([(0, frameA), (0, frameB), (0, frameC)], some PyExc.ValueError) ∧
    (bufferedTickP2 (npOnes 1 1)
        [(0, frameA), (0, frameB), (0, frameC)]).emitted = none ∧
    (bufferedTickP2 (npOnes 1 1)
        [(0, frameA), (0, frameB), (0, frameC)]).rescheduled = false ∧
    (bufferedTickP2 (npOnes 1 1)
        [(0, frameA), (0, frameB), (0, frameC)]).heap =
      [(0, frameB), (0, frameC)] := by
  refine ⟨?_, ?_, ?_, ?_, ?_⟩ <;>
    simp [putP2, heappush, siftdown, siftdownLoop, siftup, siftupLoop,
      heappop, getNowaitP2, bufferedTickP2, entryLt, hGet, hSet]

/-- C10 (amended): `heappush` appends before sifting, so a second
insertion under an already-present sequence number leaves both entries
in the heap — the queue is not a last-writer-wins mapping — but the
insertion raises `ValueError` into the producer; with exactly two
entries under the key the next two ticks still emit one frame each,
while after a third same-key insertion the emission tick's pop raises
`ValueError` uncaught in the tick thread: nothing is emitted, the loop
stops rescheduling, and the minimal entry is lost from the queue. -/
theorem duplicate_seq_kept_but_raises (k : ℕ) (f1 f2 f3 lf : NpArray) :
    heappush [(k, f1)] (k, f2) =
      ([(k, f1), (k, f2)], some PyExc.ValueError) ∧
    (bufferedTickP2 lf [(k, f1), (k, f2)]).emitted = some f1 ∧
    (bufferedTickP2 lf [(k, f1), (k, f2)]).popped = some k ∧
    (bufferedTickP2 lf [(k, f1), (k, f2)]).heap = [(k, f2)] ∧
    (bufferedTickP2 f1 [(k, f2)]).emitted = some f2 ∧
    (bufferedTickP2 f1 [(k, f2)]).popped = some k ∧
    (bufferedTickP2 f1 [(k, f2)]).heap = [] ∧
    heappush [(k, f1), (k, f2)] (k, f3) =
      ([(k, f1), (k, f2), (k, f3)], some PyExc.ValueError) ∧
    (bufferedTickP2 lf [(k, f1), (k, f2), (k, f3)]).emitted = none ∧
    (bufferedTickP2 lf [(k, f1), (k, f2), (k, f3)]).rescheduled = false ∧
    (bufferedTickP2 lf [(k, f1), (k, f2), (k, f3)]).heap =
      [(k, f2), (k, f3)] := by
  refine ⟨?_, ?_, ?_, ?_, ?_, ?_, ?_, ?_, ?_, ?_, ?_⟩ <;>
    simp [heappush, siftdown, siftdownLoop, siftup, siftupLoop,
      heappop, getNowaitP2, bufferedTickP2, entryLt, hGet, hSet]
